import Mathlib

/-!
Verification of the Cortex inference core
(`android/app/src/main/cpp/memory_manager.cpp`, `inference_engine.cpp`).

The C++ code is embedded shallowly:

* `size_t` values are `Nat`; where the C++ arithmetic can wrap, the wrap
  is made explicit with `% SIZE_T_MOD` (64-bit `size_t`).
* The llama.cpp backend (tokenizer, decoder, sampler, KV-cache memory) is
  an opaque collaborator; it is modelled by a record of oracle functions
  (`Backend`).  The engine never inspects backend internals, so any
  determinate behaviour of the backend is a valid instantiation.
* Callback invocations of the memory manager are returned as an explicit
  event list so that "the callback was (not) invoked" is statable.
-/

namespace Cortex

/-! ## Memory manager (`memory_manager.cpp`) -/

/-- Pressure levels, `memory_manager.h`. -/
inductive MemoryPressure
  | Low
  | Medium
  | High
  | Critical
deriving DecidableEq, Repr

/-- `MEMORY_LOW_THRESHOLD` (512 MB).  Defined in the source; not consulted by
`getMemoryPressure`, whose final `else` branch starts at 256 MB. -/
def MEMORY_LOW_THRESHOLD : Nat := 512 * 1024 * 1024

/-- `MEMORY_MEDIUM_THRESHOLD` (256 MB). -/
def MEMORY_MEDIUM_THRESHOLD : Nat := 256 * 1024 * 1024

/-- `MEMORY_HIGH_THRESHOLD` (128 MB). -/
def MEMORY_HIGH_THRESHOLD : Nat := 128 * 1024 * 1024

/-- `MEMORY_CRITICAL_THRESHOLD` (64 MB). -/
def MEMORY_CRITICAL_THRESHOLD : Nat := 64 * 1024 * 1024

/-- `ALLOCATION_SAFETY_MARGIN` (100 MB). -/
def ALLOCATION_SAFETY_MARGIN : Nat := 100 * 1024 * 1024

/-- `MIN_FREE_AFTER_ALLOC` (500 MB), local constant of `canAllocate`. -/
def MIN_FREE_AFTER_ALLOC : Nat := 500 * 1024 * 1024

/-- `BYTES_PER_TOKEN` (4 KB), local constant of `getRecommendedContextSize`. -/
def BYTES_PER_TOKEN : Nat := 4 * 1024

/-- One past the largest `size_t` value: unsigned arithmetic wraps modulo
this (64-bit platform). -/
def SIZE_T_MOD : Nat := 2 ^ 64

/-- `MemoryManager::getMemoryPressure`, parameterised by the value
`getAvailableMemory()` returns. -/
def getMemoryPressure (available : Nat) : MemoryPressure :=
  if available < MEMORY_CRITICAL_THRESHOLD then MemoryPressure.Critical
  else if available < MEMORY_HIGH_THRESHOLD then MemoryPressure.High
  else if available < MEMORY_MEDIUM_THRESHOLD then MemoryPressure.Medium
  else MemoryPressure.Low

/-- `MemoryManager::canAllocate`.  `needed = bytes + ALLOCATION_SAFETY_MARGIN`
and `available - bytes` are `size_t` expressions, so both are computed
modulo `SIZE_T_MOD` exactly as the C++ does. -/
def canAllocate (available bytes : Nat) : Bool :=
  if available < (bytes + ALLOCATION_SAFETY_MARGIN) % SIZE_T_MOD then false
  else if (available + SIZE_T_MOD - bytes) % SIZE_T_MOD < MIN_FREE_AFTER_ALLOC then false
  else true

/-- The `while (result < max_tokens && result < 32768) result *= 2;` loop of
`MemoryManager::getRecommendedContextSize`.  Starting from `result = 512`
with `max_tokens ≤ 32768` the loop body runs at most 6 times, so fuel 7 is
an exact rendering. -/
def pow2Loop : Nat → Nat → Nat → Nat
  | 0, result, _ => result
  | fuel + 1, result, maxTokens =>
      if result < maxTokens ∧ result < 32768 then pow2Loop fuel (2 * result) maxTokens
      else result

/-- Tail of `getRecommendedContextSize`: the doubling loop followed by
`if (result > max_tokens) result /= 2;`. -/
def roundPow2 (maxTokens : Nat) : Nat :=
  let result := pow2Loop 7 512 maxTokens
  if maxTokens < result then result / 2 else result

/-- `usable / BYTES_PER_TOKEN` clamped to `[512, 32768]`, the value the
doubling loop of `getRecommendedContextSize` receives. -/
def clampTokens (available : Nat) : Nat :=
  let usable := if ALLOCATION_SAFETY_MARGIN < available
                then available - ALLOCATION_SAFETY_MARGIN else 0
  min (max (usable / BYTES_PER_TOKEN) 512) 32768

/-- `MemoryManager::getRecommendedContextSize`, parameterised by
`getAvailableMemory()`. -/
def getRecommendedContextSize (available : Nat) : Nat :=
  roundPow2 (clampTokens available)

/-- Mutable state of the `MemoryManager` singleton: the two running totals
and whether `pressure_callback_` is set. -/
structure MMState where
  model_memory : Nat
  context_memory : Nat
  has_callback : Bool
deriving DecidableEq, Repr

/-- `MemoryManager::checkMemoryPressure`: returns the list of callback
invocations it performs (the state is not changed). -/
def checkMemoryPressure (available : Nat) (s : MMState) : List MemoryPressure :=
  let p := getMemoryPressure available
  if p ≠ MemoryPressure.Low ∧ s.has_callback then [p] else []

/-- `MemoryManager::registerModelMemory`: `model_memory_ += bytes`
(`size_t`, hence modulo), then `checkMemoryPressure()`. -/
def registerModelMemory (available bytes : Nat) (s : MMState) :
    MMState × List MemoryPressure :=
  let s1 := { s with model_memory := (s.model_memory + bytes) % SIZE_T_MOD }
  (s1, checkMemoryPressure available s1)

/-- `MemoryManager::unregisterModelMemory`: clamped decrement, no pressure
check and no callback. -/
def unregisterModelMemory (bytes : Nat) (s : MMState) :
    MMState × List MemoryPressure :=
  (if s.model_memory < bytes then { s with model_memory := 0 }
   else { s with model_memory := s.model_memory - bytes }, [])

/-- `MemoryManager::registerContextMemory`. -/
def registerContextMemory (available bytes : Nat) (s : MMState) :
    MMState × List MemoryPressure :=
  let s1 := { s with context_memory := (s.context_memory + bytes) % SIZE_T_MOD }
  (s1, checkMemoryPressure available s1)

/-- `MemoryManager::unregisterContextMemory`. -/
def unregisterContextMemory (bytes : Nat) (s : MMState) :
    MMState × List MemoryPressure :=
  (if s.context_memory < bytes then { s with context_memory := 0 }
   else { s with context_memory := s.context_memory - bytes }, [])

/-! ## Inference engine (`inference_engine.cpp`) -/

/-- The fields of `InferenceConfig` the control flow reads.  The sampling
parameters (floats) are forwarded verbatim to the opaque sampler and never
branch the engine, so they are not represented. -/
structure InferenceConfig where
  context_length : Nat := 4096
  batch_size : Nat := 512
  max_tokens : Nat := 2048
deriving DecidableEq, Repr

/-- Oracle model of the llama.cpp backend as seen through the calls the
engine makes.

* `tokRes n`: result of `llama_tokenize` when handed a buffer of capacity
  `n` (non-negative: number of tokens written; negative: buffer too small,
  `-required`), for the prompt of the call being analysed.
* `promptToks`: the token ids the tokenizer writes on success (the engine
  reads the first `n` slots; slots beyond `promptToks.length`, which a real
  run never produces, are modelled as zero-filled).
* `decode batch pos`: success of `llama_decode` for this batch starting at
  `pos` (the internal sub-batching of `evaluateTokens` only splits the same
  backend work, so one oracle call stands for the whole evaluation).
* `sample hist`: token chosen by `llama_sampler_sample` given the current
  history.
* `isEog t`: `llama_vocab_is_eog`.
* `tokenText t`: `llama_token_to_piece` (may be empty).
* `seqRm seq start finish`: result of `llama_memory_seq_rm`. -/
structure Backend where
  tokRes : Nat → Int
  promptToks : List Nat
  decode : List Nat → Nat → Bool
  sample : List Nat → Nat
  isEog : Nat → Bool
  tokenText : Nat → String
  seqRm : Nat → Nat → Nat → Bool

/-- The token values sitting in a buffer of size `n` after a successful
tokenizer call (`n` real tokens; padding only in the counterfactual case
`n > promptToks.length`). -/
def writeTokens (B : Backend) (n : Nat) : List Nat :=
  B.promptToks.take n ++ List.replicate (n - B.promptToks.length) 0

/-- Engine state relevant to the claims: `tokens_`, `n_past_`,
`current_pos_`, the two token counters of `stats_`, the two flags and the
current config.  Timing statistics (wall-clock floats) are omitted. -/
structure EngineState where
  tokens : List Nat
  n_past : Nat
  current_pos : Nat
  prompt_tokens : Nat
  generated : Nat
  is_generating : Bool
  stop_requested : Bool
  config : InferenceConfig
deriving DecidableEq, Repr

/-- State of a freshly constructed engine after `loadModel`. -/
def initState : EngineState :=
  { tokens := [], n_past := 0, current_pos := 0, prompt_tokens := 0,
    generated := 0, is_generating := false, stop_requested := false,
    config := {} }

/-- `InferenceEngine::tokenizePrompt`.  Returns (success, the vector
`tokens` after the call, the buffer capacities passed to the backend).
The C++ resizes the output vector to `prompt.length() + 32`, calls
`llama_tokenize`, on a negative result resizes to the reported requirement
and retries once, and finally resizes to the token count on success. -/
def tokenizePrompt (B : Backend) (promptLen : Nat) : Bool × List Nat × List Nat :=
  let maxTokens := promptLen + 32
  let n1 := B.tokRes maxTokens
  if n1 < 0 then
    let need := (-n1).toNat
    let n2 := B.tokRes need
    if n2 < 0 then (false, writeTokens B need, [maxTokens, need])
    else (true, writeTokens B n2.toNat, [maxTokens, need])
  else (true, writeTokens B n1.toNat, [maxTokens])

/-- `InferenceEngine::evaluateTokens`: the batched `llama_decode` calls,
abstracted as one oracle call (success iff every sub-batch decodes). -/
def evaluateTokens (B : Backend) (toks : List Nat) (nPast : Nat) : Bool :=
  B.decode toks nPast

/-- `InferenceEngine::shiftContext`.  Early-returns when
`n_past_ <= keep_tokens`; otherwise calls `llama_memory_seq_rm` /
`llama_memory_seq_add` (the boolean result of the former is discarded by
the C++, exactly as the unused `let` here), sets `n_past_ = keep_tokens`,
erases all but the last `keep_tokens` entries of `tokens_`, and sets
`current_pos_ = tokens_.size()`. -/
def shiftContext (B : Backend) (keep : Nat) (s : EngineState) : EngineState :=
  if s.n_past ≤ keep then s
  else
    let shiftAmount := s.n_past - keep
    let _ := B.seqRm 0 0 shiftAmount
    let s1 := { s with n_past := keep }
    let s2 := if keep < s1.tokens.length
              then { s1 with tokens := s1.tokens.drop (s1.tokens.length - keep) }
              else s1
    { s2 with current_pos := s2.tokens.length }

/-- `InferenceEngine::startInference` (fresh start).  Clears the token
history and counters, stores the new config, tokenizes the prompt into
`tokens_`, clears the KV cache (backend side), evaluates the prompt and on
success commits `n_past_ = tokens_.size()`. -/
def startInference (B : Backend) (promptLen : Nat) (cfg : InferenceConfig)
    (s : EngineState) : Bool × EngineState :=
  let s0 := { s with is_generating := false, stop_requested := false,
                     tokens := [], current_pos := 0, n_past := 0, config := cfg }
  let tk := tokenizePrompt B promptLen
  if tk.1 then
    let buf := tk.2.1
    let s1 := { s0 with tokens := buf, prompt_tokens := buf.length, generated := 0 }
    if evaluateTokens B buf 0 then
      (true, { s1 with n_past := buf.length, current_pos := buf.length,
                       is_generating := true })
    else (false, s1)
  else (false, { s0 with tokens := tk.2.1 })

/-- `InferenceEngine::startInferenceIncremental`.  Keeps the existing
history; tokenizes only the increment, shifts to 64 kept tokens when
`(int)new_tokens.size() > context_length - n_past_ - 32` (signed
arithmetic, hence the `Int` cast), evaluates the increment at `n_past_`
and appends it on success. -/
def startInferenceIncremental (B : Backend) (promptLen : Nat)
    (cfg : InferenceConfig) (s : EngineState) : Bool × EngineState :=
  let s0 := { s with is_generating := false, stop_requested := false, config := cfg }
  let tk := tokenizePrompt B promptLen
  if tk.1 then
    let newToks := tk.2.1
    let s1 := if (newToks.length : Int) >
                 (cfg.context_length : Int) - (s0.n_past : Int) - 32
              then shiftContext B 64 s0 else s0
    let s2 := { s1 with prompt_tokens := newToks.length, generated := 0 }
    if evaluateTokens B newToks s2.n_past then
      let toks := s2.tokens ++ newToks
      (true, { s2 with tokens := toks, n_past := s2.n_past + newToks.length,
                       current_pos := toks.length, is_generating := true })
    else (false, s2)
  else (false, s0)

/-- `InferenceEngine::clearCache`. -/
def clearCache (s : EngineState) : EngineState :=
  { s with tokens := [], n_past := 0, current_pos := 0 }

/-- `InferenceEngine::getNextToken`: one synchronous generation step,
returning the token text (empty on any terminating branch) and the new
state. -/
def getNextToken (B : Backend) (s : EngineState) : String × EngineState :=
  if ¬s.is_generating ∨ s.stop_requested then
    ("", { s with is_generating := false })
  else if (s.config.context_length : Int) - 1 ≤ (s.n_past : Int) then
    ("", { s with is_generating := false })
  else if s.config.max_tokens ≤ s.generated then
    ("", { s with is_generating := false })
  else
    let newTok := B.sample s.tokens
    if B.isEog newTok then ("", { s with is_generating := false })
    else
      let text := B.tokenText newTok
      let s1 := { s with tokens := s.tokens ++ [newTok] }
      if evaluateTokens B [newTok] s1.n_past then
        (text, { s1 with n_past := s1.n_past + 1, generated := s1.generated + 1,
                         current_pos := s1.current_pos + 1 })
      else ("", { s1 with is_generating := false })

/-- `InferenceEngine::getNextTokens`: up to `count` single steps, with a
proactive `shiftContext(64)` whenever
`n_past_ >= context_length - 16` (signed), breaking when a step returns
empty with generation over. -/
def getNextTokens (B : Backend) : Nat → EngineState → List String × EngineState
  | 0, s => ([], s)
  | count + 1, s =>
      if s.is_generating ∧ ¬s.stop_requested then
        let s1 := if (s.config.context_length : Int) - 16 ≤ (s.n_past : Int)
                  then shiftContext B 64 s else s
        let r := getNextToken B s1
        if r.1 = "" ∧ r.2.is_generating = false then ([], r.2)
        else
          let rest := getNextTokens B count r.2
          (r.1 :: rest.1, rest.2)
      else ([], s)

/-- The public operations the history/committed invariant quantifies over.
Each carries the prompt length / config of that call. -/
inductive EngineOp
  | startInf (promptLen : Nat) (cfg : InferenceConfig)
  | startInc (promptLen : Nat) (cfg : InferenceConfig)
  | next
  | nextN (count : Nat)
  | shiftCtx (keep : Nat)
  | clearCacheOp

/-- Effect of one public operation on the engine state (returned values
discarded). -/
def applyOp (B : Backend) (op : EngineOp) (s : EngineState) : EngineState :=
  match op with
  | .startInf p cfg => (startInference B p cfg s).2
  | .startInc p cfg => (startInferenceIncremental B p cfg s).2
  | .next => (getNextToken B s).2
  | .nextN n => (getNextTokens B n s).2
  | .shiftCtx keep => shiftContext B keep s
  | .clearCacheOp => clearCache s

/-- Run a sequence of public operations, each against its own backend
oracle (different calls may involve different prompts). -/
def runOps : List (Backend × EngineOp) → EngineState → EngineState
  | [], s => s
  | (B, op) :: rest, s => runOps rest (applyOp B op s)

/-- The first half of the claimed session invariant:
`committed ≤ len(history)`, i.e. `n_past_ ≤ tokens_.size()`. -/
def histInv (s : EngineState) : Prop := s.n_past ≤ s.tokens.length

/-! ### Concrete instances used by witnesses and counterexamples -/

/-- A benign backend: every prompt tokenizes to ten tokens, decoding always
succeeds, sampling always yields token 42 with text "a", never
end-of-generation. -/
def oneB : Backend :=
  { tokRes := fun _ => 10
    promptToks := [1, 2, 3, 4, 5, 6, 7, 8, 9, 10]
    decode := fun _ _ => true
    sample := fun _ => 42
    isEog := fun _ => false
    tokenText := fun _ => "a"
    seqRm := fun _ _ _ => true }

/-- Same backend but the decoder rejects every batch. -/
def failDecodeB : Backend := { oneB with decode := fun _ _ => false }

/-- Same backend but `llama_memory_seq_rm` refuses (returns false). -/
def refuseB : Backend := { oneB with seqRm := fun _ _ _ => false }

/-- Backend whose tokenizer reports a too-small buffer twice in a row. -/
def doubleFailTokB : Backend := { oneB with tokRes := fun _ => -5 }

/-- A config with a window capacity of 8 tokens, smaller than the ten-token
prompt of `oneB`. -/
def cfg8 : InferenceConfig := { context_length := 8, batch_size := 512, max_tokens := 2048 }

/-- Scenario A configuration: windowCapacity 2048, maxOutputTokens 5. -/
def cfgScenA : InferenceConfig := { context_length := 2048, batch_size := 512, max_tokens := 5 }

/-- Scenario A: state after the fresh start and after each synchronous
generation step. -/
def scenAState : Nat → EngineState
  | 0 => (startInference oneB 10 cfgScenA initState).2
  | n + 1 => (getNextToken oneB (scenAState n)).2

/-- A mid-generation state with 100 committed tokens, used to exercise
`shiftContext`. -/
def shiftDemoState : EngineState :=
  { tokens := List.replicate 100 7, n_past := 100, current_pos := 100,
    prompt_tokens := 0, generated := 0, is_generating := true,
    stop_requested := false, config := {} }

end Cortex

namespace Cortex

/-! ## Theorems: memory manager -/

/-- Characterisation of `canAllocate` when `bytes + ALLOCATION_SAFETY_MARGIN`
does not wrap around `size_t`: true iff the available memory covers the
request plus the 100 MB margin and the allocation leaves at least the
500 MB minimum free. -/
theorem canAllocate_eq_true_iff (a b : Nat) (ha : a < SIZE_T_MOD)
    (hb : b + ALLOCATION_SAFETY_MARGIN < SIZE_T_MOD) :
    canAllocate a b = true ↔
      b + ALLOCATION_SAFETY_MARGIN ≤ a ∧ MIN_FREE_AFTER_ALLOC ≤ a - b := by
  have h1 : (b + ALLOCATION_SAFETY_MARGIN) % SIZE_T_MOD = b + ALLOCATION_SAFETY_MARGIN :=
    Nat.mod_eq_of_lt hb
  by_cases c1 : a < b + ALLOCATION_SAFETY_MARGIN
  · simp only [canAllocate, h1, if_pos c1]
    constructor
    · intro h; cases h
    · intro h; omega
  · have h2 : (a + SIZE_T_MOD - b) % SIZE_T_MOD = a - b := by
      have e : a + SIZE_T_MOD - b = (a - b) + SIZE_T_MOD := by omega
      rw [e, Nat.add_mod_right]
      exact Nat.mod_eq_of_lt (by omega)
    simp only [canAllocate, h1, if_neg c1, h2]
    by_cases c2 : a - b < MIN_FREE_AFTER_ALLOC
    · simp only [if_pos c2]
      constructor
      · intro h; cases h
      · intro h; omega
    · simp only [if_neg c2]
      constructor
      · intro _; exact ⟨by omega, by omega⟩
      · intro _; trivial

/-- C5: for requests below the `size_t` wrap-around of
`bytes + ALLOCATION_SAFETY_MARGIN`, `canAllocate` is true iff the available
memory is at least the request plus the 100 MB safety margin and at least
500 MB remain free after the allocation; `canAllocate(700 MB)` is false at
600 MB available and true at 1200 MB available. -/
theorem canAllocate_spec (a b : Nat) (ha : a < SIZE_T_MOD)
    (hb : b + ALLOCATION_SAFETY_MARGIN < SIZE_T_MOD) :
    (canAllocate a b = true ↔
      b + ALLOCATION_SAFETY_MARGIN ≤ a ∧ MIN_FREE_AFTER_ALLOC ≤ a - b)
    ∧ canAllocate (600 * 1024 * 1024) (700 * 1024 * 1024) = false
    ∧ canAllocate (1200 * 1024 * 1024) (700 * 1024 * 1024) = true :=
  ⟨canAllocate_eq_true_iff a b ha hb, by decide, by decide⟩

/-- Witness for `canAllocate_spec` at concrete inputs. -/
theorem canAllocate_spec_witness :
    canAllocate (600 * 1024 * 1024) (700 * 1024 * 1024) = false
    ∧ canAllocate (1200 * 1024 * 1024) (700 * 1024 * 1024) = true :=
  (canAllocate_spec 0 0 (by decide) (by decide)).2

/-- C5 counterexample: for `bytes = 2^64 - 1` the `size_t` sum
`bytes + 100 MB` wraps, the primary check passes vacuously, the `size_t`
difference `available - bytes` wraps to a huge value, and `canAllocate`
returns true although the claimed check `available ≥ bytes + margin`
fails. -/
theorem canAllocate_wrap_cex :
    canAllocate (600 * 1024 * 1024) (SIZE_T_MOD - 1) = true
    ∧ ¬(SIZE_T_MOD - 1 + ALLOCATION_SAFETY_MARGIN ≤ 600 * 1024 * 1024) := by
  decide

/-- C6: at a fixed snapshot, `canAllocate` is antitone in the request size
as long as the larger request does not wrap `bytes + margin` around
`size_t`. -/
theorem canAllocate_antitone (a x y : Nat) (ha : a < SIZE_T_MOD)
    (hy : y + ALLOCATION_SAFETY_MARGIN < SIZE_T_MOD) (hxy : x ≤ y)
    (hx : canAllocate a x = false) : canAllocate a y = false := by
  cases hc : canAllocate a y with
  | false => rfl
  | true =>
      exfalso
      have hy2 := (canAllocate_eq_true_iff a y ha hy).mp hc
      have hx2 : canAllocate a x = true :=
        (canAllocate_eq_true_iff a x ha (by omega)).mpr ⟨by omega, by omega⟩
      rw [hx] at hx2
      cases hx2

/-- Witness for `canAllocate_antitone` at concrete inputs. -/
theorem canAllocate_antitone_witness :
    canAllocate (600 * 1024 * 1024) (800 * 1024 * 1024) = false :=
  canAllocate_antitone (600 * 1024 * 1024) (700 * 1024 * 1024) (800 * 1024 * 1024)
    (by decide) (by decide) (by decide) (by decide)

/-- C6 counterexample: with 600 MB available, `canAllocate` rejects 700 MB
but accepts the larger request `2^64 - 1` because the `size_t` arithmetic
wraps, so antitonicity fails at the claimed generality. -/
theorem canAllocate_antitone_cex :
    canAllocate (600 * 1024 * 1024) (700 * 1024 * 1024) = false
    ∧ 700 * 1024 * 1024 ≤ SIZE_T_MOD - 1
    ∧ canAllocate (600 * 1024 * 1024) (SIZE_T_MOD - 1) = true := by
  decide

/-- C7: the pressure ladder of `getMemoryPressure`: Critical below 64 MB,
High on [64 MB, 128 MB), Medium on [128 MB, 256 MB), and Low from 512 MB
up. -/
theorem getMemoryPressure_ladder (a : Nat) :
    (a < 64 * 1024 * 1024 → getMemoryPressure a = MemoryPressure.Critical)
    ∧ (64 * 1024 * 1024 ≤ a → a < 128 * 1024 * 1024 →
        getMemoryPressure a = MemoryPressure.High)
    ∧ (128 * 1024 * 1024 ≤ a → a < 256 * 1024 * 1024 →
        getMemoryPressure a = MemoryPressure.Medium)
    ∧ (512 * 1024 * 1024 ≤ a → getMemoryPressure a = MemoryPressure.Low) := by
  unfold getMemoryPressure MEMORY_CRITICAL_THRESHOLD MEMORY_HIGH_THRESHOLD
    MEMORY_MEDIUM_THRESHOLD
  refine ⟨?_, ?_, ?_, ?_⟩ <;> intros <;> split_ifs <;> first | rfl | omega

/-- Witness for `getMemoryPressure_ladder` at concrete inputs. -/
theorem getMemoryPressure_ladder_witness :
    getMemoryPressure 0 = MemoryPressure.Critical
    ∧ getMemoryPressure (512 * 1024 * 1024) = MemoryPressure.Low :=
  ⟨(getMemoryPressure_ladder 0).1 (by decide),
   (getMemoryPressure_ladder (512 * 1024 * 1024)).2.2.2 (by decide)⟩

/-- C10: the unregister operations only decrease their running total,
clamping at zero, and invoke no pressure callback; the register operations
re-evaluate pressure via `checkMemoryPressure`, which invokes the callback
exactly when the pressure is not Low and a callback is registered. -/
theorem register_unregister_pressure (available bytes : Nat) (s : MMState) :
    (unregisterModelMemory bytes s).1.model_memory = s.model_memory - bytes
    ∧ (unregisterModelMemory bytes s).1.model_memory ≤ s.model_memory
    ∧ (unregisterModelMemory bytes s).2 = []
    ∧ (unregisterContextMemory bytes s).1.context_memory = s.context_memory - bytes
    ∧ (unregisterContextMemory bytes s).1.context_memory ≤ s.context_memory
    ∧ (unregisterContextMemory bytes s).2 = []
    ∧ (registerModelMemory available bytes s).2
        = checkMemoryPressure available (registerModelMemory available bytes s).1
    ∧ ((registerModelMemory available bytes s).2 ≠ []
        ↔ getMemoryPressure available ≠ MemoryPressure.Low ∧ s.has_callback = true)
    ∧ (registerContextMemory available bytes s).2
        = checkMemoryPressure available (registerContextMemory available bytes s).1
    ∧ ((registerContextMemory available bytes s).2 ≠ []
        ↔ getMemoryPressure available ≠ MemoryPressure.Low ∧ s.has_callback = true) := by
  refine ⟨?_, ?_, ?_, ?_, ?_, ?_, rfl, ?_, rfl, ?_⟩
  · unfold unregisterModelMemory
    split_ifs with h
    · simp
      omega
    · simp
  · unfold unregisterModelMemory
    split_ifs with h <;> simp
  · rfl
  · unfold unregisterContextMemory
    split_ifs with h
    · simp
      omega
    · simp
  · unfold unregisterContextMemory
    split_ifs with h <;> simp
  · rfl
  · unfold registerModelMemory checkMemoryPressure
    dsimp only
    split_ifs with h
    · simpa using h
    · simpa using h
  · unfold registerContextMemory checkMemoryPressure
    dsimp only
    split_ifs with h
    · simpa using h
    · simpa using h

end Cortex

namespace Cortex

/-- The doubling loop returns its accumulator unchanged once the
accumulator has reached `maxTokens`. -/
theorem pow2Loop_exit (fuel r m : Nat) (h : ¬ r < m) : pow2Loop fuel r m = r := by
  cases fuel with
  | zero => rfl
  | succ f =>
      simp only [pow2Loop]
      rw [if_neg]
      exact fun hc => h hc.1

/-- Running the doubling loop from the power `2 ^ j` strictly below `m`
with enough fuel yields the least power of two that is at least `m`. -/
theorem pow2Loop_ge (fuel : Nat) (m : Nat) (h3 : m ≤ 32768) :
    ∀ j, 2 ^ j < m → m ≤ 2 ^ (j + fuel) →
      m ≤ pow2Loop fuel (2 ^ j) m ∧ pow2Loop fuel (2 ^ j) m < 2 * m
      ∧ ∃ k, pow2Loop fuel (2 ^ j) m = 2 ^ k := by
  induction fuel with
  | zero =>
      intro j h1 h2
      exfalso
      simp only [Nat.add_zero] at h2
      omega
  | succ f ih =>
      intro j h1 h2
      have hcond : 2 ^ j < m ∧ 2 ^ j < 32768 := ⟨h1, by omega⟩
      simp only [pow2Loop]
      rw [if_pos hcond]
      have h2j : 2 * 2 ^ j = 2 ^ (j + 1) := by ring
      rw [h2j]
      by_cases hc : 2 ^ (j + 1) < m
      · have e : j + (f + 1) = j + 1 + f := by omega
        rw [e] at h2
        exact ih (j + 1) hc h2
      · rw [pow2Loop_exit f _ m hc]
        refine ⟨by omega, ?_, ⟨j + 1, rfl⟩⟩
        calc 2 ^ (j + 1) = 2 * 2 ^ j := by ring
        _ < 2 * m := by omega

/-- The tail of `getRecommendedContextSize` computes the largest power of
two that does not exceed its clamped argument. -/
theorem roundPow2_spec (m : Nat) (hlo : 512 ≤ m) (hhi : m ≤ 32768) :
    roundPow2 m ≤ m ∧ m < 2 * roundPow2 m ∧ ∃ k, roundPow2 m = 2 ^ k := by
  unfold roundPow2
  dsimp only
  by_cases h5 : m ≤ 512
  · rw [pow2Loop_exit 7 512 m (by omega), if_neg (by omega)]
    exact ⟨hlo, by omega, ⟨9, by norm_num⟩⟩
  · have h29 : (2 : Nat) ^ 9 = 512 := by norm_num
    have h216 : (2 : Nat) ^ (9 + 7) = 65536 := by norm_num
    obtain ⟨hge, hlt, k, hk⟩ :=
      pow2Loop_ge 7 m hhi 9 (by omega) (by omega)
    rw [h29] at hge hlt hk
    by_cases hlt2 : m < pow2Loop 7 512 m
    · rw [if_pos hlt2]
      have hk1 : 1 ≤ k := by
        rcases Nat.eq_zero_or_pos k with h0 | h0
        · subst h0; simp at hk; omega
        · exact h0
      have hpow : 2 ^ k = 2 * 2 ^ (k - 1) := by
        conv_lhs => rw [show k = k - 1 + 1 by omega]
        ring
      have hdiv : pow2Loop 7 512 m / 2 = 2 ^ (k - 1) := by
        rw [hk, hpow, Nat.mul_div_cancel_left _ (by norm_num)]
      rw [hdiv]
      refine ⟨by omega, by omega, ⟨k - 1, rfl⟩⟩
    · rw [if_neg hlt2]
      exact ⟨by omega, by omega, ⟨k, hk⟩⟩

/-- C8: `getRecommendedContextSize` equals the clamped token estimate
`min (max ((available - margin) / 4096) 512) 32768` rounded down to the
nearest power of two: it is a power of two, never exceeds the clamped
value, and doubling it overshoots the clamped value; it stays within
[512, 32768]. -/
theorem getRecommendedContextSize_pow2 (available : Nat) :
    getRecommendedContextSize available ≤ clampTokens available
    ∧ clampTokens available < 2 * getRecommendedContextSize available
    ∧ (∃ k, getRecommendedContextSize available = 2 ^ k)
    ∧ 512 ≤ getRecommendedContextSize available
    ∧ getRecommendedContextSize available ≤ 32768 := by
  have hlo : 512 ≤ clampTokens available := by
    unfold clampTokens
    dsimp only
    exact le_min (le_max_right _ _) (by norm_num)
  have hhi : clampTokens available ≤ 32768 := min_le_right _ _
  obtain ⟨h1, h2, k, hk⟩ := roundPow2_spec (clampTokens available) hlo hhi
  have hres : getRecommendedContextSize available = roundPow2 (clampTokens available) := rfl
  rw [← hres] at h1 h2 hk
  have h256 : 256 < getRecommendedContextSize available := by omega
  have hk9 : 8 < k := by
    have h2k : (2 : Nat) ^ 8 < 2 ^ k := by
      have h28 : (2 : Nat) ^ 8 = 256 := by norm_num
      omega
    exact (Nat.pow_lt_pow_iff_right (by norm_num)).mp h2k
  have h512 : 512 ≤ getRecommendedContextSize available := by
    have : (2 : Nat) ^ 9 ≤ 2 ^ k := Nat.pow_le_pow_right (by norm_num) (by omega)
    have h29 : (2 : Nat) ^ 9 = 512 := by norm_num
    omega
  exact ⟨h1, h2, ⟨k, hk⟩, h512, by omega⟩

end Cortex

namespace Cortex

/-! ## Theorems: tokenization and context shifting -/

/-- The vector that `tokenizePrompt` leaves behind has exactly the length
it was last resized to. -/
theorem writeTokens_length (B : Backend) (n : Nat) : (writeTokens B n).length = n := by
  unfold writeTokens
  simp only [List.length_append, List.length_take, List.length_replicate]
  omega

/-- C9: a tokenizer call whose buffer guess `prompt.length + 32` is too
small is retried exactly once with the size the backend reported; a second
failure makes `tokenizePrompt` fail and with it the session start; on any
successful attempt the token vector is resized to exactly the reported
token count. -/
theorem tokenizePrompt_retry_spec (B : Backend) (promptLen : Nat)
    (cfg : InferenceConfig) (s : EngineState) :
    (0 ≤ B.tokRes (promptLen + 32) →
      (tokenizePrompt B promptLen).2.2 = [promptLen + 32]
      ∧ (tokenizePrompt B promptLen).1 = true
      ∧ (tokenizePrompt B promptLen).2.1.length = (B.tokRes (promptLen + 32)).toNat)
    ∧ (B.tokRes (promptLen + 32) < 0 →
      (tokenizePrompt B promptLen).2.2
          = [promptLen + 32, (-(B.tokRes (promptLen + 32))).toNat]
      ∧ (0 ≤ B.tokRes ((-(B.tokRes (promptLen + 32))).toNat) →
          (tokenizePrompt B promptLen).1 = true
          ∧ (tokenizePrompt B promptLen).2.1.length
              = (B.tokRes ((-(B.tokRes (promptLen + 32))).toNat)).toNat)
      ∧ (B.tokRes ((-(B.tokRes (promptLen + 32))).toNat) < 0 →
          (tokenizePrompt B promptLen).1 = false))
    ∧ ((tokenizePrompt B promptLen).1 = false →
        (startInference B promptLen cfg s).1 = false) := by
  refine ⟨?_, ?_, ?_⟩
  · intro h
    unfold tokenizePrompt
    dsimp only
    rw [if_neg (by omega)]
    exact ⟨rfl, rfl, writeTokens_length B _⟩
  · intro h
    unfold tokenizePrompt
    dsimp only
    rw [if_pos h]
    by_cases h2 : B.tokRes ((-(B.tokRes (promptLen + 32))).toNat) < 0
    · rw [if_pos h2]
      exact ⟨rfl, fun h3 => absurd h2 (by omega), fun _ => rfl⟩
    · rw [if_neg h2]
      exact ⟨rfl, fun _ => ⟨rfl, writeTokens_length B _⟩, fun h3 => absurd h3 h2⟩
  · intro h
    unfold startInference
    dsimp only
    rw [if_neg (by simp [h])]

/-- Witness for `tokenizePrompt_retry_spec`: a backend that reports a too
small buffer twice makes both the tokenization and the session start
fail. -/
theorem tokenizePrompt_retry_witness :
    (tokenizePrompt doubleFailTokB 42).1 = false
    ∧ (startInference doubleFailTokB 42 cfgScenA initState).1 = false := by
  have h := tokenizePrompt_retry_spec doubleFailTokB 42 cfgScenA initState
  have hfail : (tokenizePrompt doubleFailTokB 42).1 = false :=
    (h.2.1 (by decide)).2.2 (by decide)
  exact ⟨hfail, h.2.2 hfail⟩

/-- Closed form of `shiftContext` in the shifting case. -/
theorem shiftContext_result (B : Backend) (keep : Nat) (s : EngineState)
    (h1 : keep < s.n_past) (h2 : s.n_past ≤ s.tokens.length) :
    shiftContext B keep s
      = { s with n_past := keep,
                 tokens := s.tokens.drop (s.tokens.length - keep),
                 current_pos := (s.tokens.drop (s.tokens.length - keep)).length } := by
  unfold shiftContext
  rw [if_neg (by omega)]
  dsimp only
  rw [if_pos (show keep < s.tokens.length by omega)]

/-- C2: `shiftContext(keep)` is a no-op when `n_past_ ≤ keep`; otherwise it
leaves exactly the last `keep` history entries, with both the history
length and the committed count equal to `keep`. -/
theorem shiftContext_spec (B : Backend) (keep : Nat) (s : EngineState)
    (hinv : s.n_past ≤ s.tokens.length) :
    (s.n_past ≤ keep → shiftContext B keep s = s)
    ∧ (keep < s.n_past →
        (shiftContext B keep s).tokens.length = keep
        ∧ (shiftContext B keep s).n_past = keep
        ∧ (shiftContext B keep s).tokens = s.tokens.drop (s.tokens.length - keep)) := by
  constructor
  · intro h
    unfold shiftContext
    rw [if_pos h]
  · intro h
    rw [shiftContext_result B keep s h hinv]
    refine ⟨?_, rfl, rfl⟩
    simp only [List.length_drop]
    omega

/-- Witness for `shiftContext_spec` on a 100-token committed state. -/
theorem shiftContext_spec_witness :
    (shiftContext oneB 64 shiftDemoState).tokens.length = 64
    ∧ (shiftContext oneB 64 shiftDemoState).n_past = 64 := by
  have h := shiftContext_spec oneB 64 shiftDemoState (by decide)
  exact ⟨(h.2 (by decide)).1, (h.2 (by decide)).2.1⟩

/-- C3 counterexample: with a backend whose `llama_memory_seq_rm` signals
false, `shiftContext` still changes both the committed count and the
history — the claimed rollback does not exist. -/
theorem shiftContext_refusal_cex :
    refuseB.seqRm 0 0 36 = false
    ∧ (shiftContext refuseB 64 shiftDemoState).n_past ≠ shiftDemoState.n_past
    ∧ (shiftContext refuseB 64 shiftDemoState).tokens ≠ shiftDemoState.tokens := by
  decide

/-- C3 amended: `shiftContext` discards the boolean result of
`llama_memory_seq_rm` and returns nothing: even when the backend refuses
the removal, the history is truncated and the committed count set to
`keep`, and the outcome is identical to that with an accepting backend. -/
theorem shiftContext_ignores_refusal (B : Backend) (keep : Nat) (s : EngineState)
    (h1 : keep < s.n_past) (h2 : s.n_past ≤ s.tokens.length)
    (_hrefuse : B.seqRm 0 0 (s.n_past - keep) = false) :
    (shiftContext B keep s).n_past = keep
    ∧ (shiftContext B keep s).tokens = s.tokens.drop (s.tokens.length - keep)
    ∧ shiftContext B keep s
        = shiftContext { B with seqRm := fun _ _ _ => true } keep s := by
  rw [shiftContext_result B keep s h1 h2,
      shiftContext_result { B with seqRm := fun _ _ _ => true } keep s h1 h2]
  exact ⟨rfl, rfl, rfl⟩

/-- Witness for `shiftContext_ignores_refusal` with the refusing backend. -/
theorem shiftContext_ignores_refusal_witness :
    (shiftContext refuseB 64 shiftDemoState).n_past = 64 :=
  (shiftContext_ignores_refusal refuseB 64 shiftDemoState
    (by decide) (by decide) (by decide)).1

end Cortex

namespace Cortex

/-! ## Theorems: the history/committed invariant and generation limits -/

/-- `shiftContext` preserves `n_past_ ≤ tokens_.size()`. -/
theorem histInv_shiftContext (B : Backend) (keep : Nat) (s : EngineState)
    (h : histInv s) : histInv (shiftContext B keep s) := by
  unfold histInv at *
  by_cases hk : s.n_past ≤ keep
  · unfold shiftContext
    rw [if_pos hk]
    exact h
  · rw [shiftContext_result B keep s (by omega) h]
    simp only [List.length_drop]
    omega

/-- `getNextToken` preserves `n_past_ ≤ tokens_.size()` on every branch,
including a failed evaluation. -/
theorem histInv_getNextToken (B : Backend) (s : EngineState)
    (h : histInv s) : histInv (getNextToken B s).2 := by
  unfold histInv getNextToken at *
  dsimp only
  split_ifs <;> simp only [List.length_append, List.length_cons, List.length_nil] <;> omega

/-- A fresh `startInference` establishes `n_past_ ≤ tokens_.size()`
unconditionally, also when tokenization or evaluation fails. -/
theorem histInv_startInference (B : Backend) (promptLen : Nat)
    (cfg : InferenceConfig) (s : EngineState) :
    histInv (startInference B promptLen cfg s).2 := by
  unfold histInv startInference
  dsimp only
  split_ifs <;> dsimp only <;> omega

/-- `startInferenceIncremental` preserves `n_past_ ≤ tokens_.size()`,
also when tokenization or evaluation fails. -/
theorem histInv_startInferenceIncremental (B : Backend) (promptLen : Nat)
    (cfg : InferenceConfig) (s : EngineState) (h : histInv s) :
    histInv (startInferenceIncremental B promptLen cfg s).2 := by
  have hshift : histInv (shiftContext B 64
      { s with is_generating := false, stop_requested := false, config := cfg }) :=
    histInv_shiftContext B 64 _ h
  unfold histInv at *
  unfold startInferenceIncremental
  dsimp only
  split_ifs <;> simp only [List.length_append] <;> omega

/-- `getNextTokens` preserves `n_past_ ≤ tokens_.size()`. -/
theorem histInv_getNextTokens (B : Backend) (n : Nat) :
    ∀ s : EngineState, histInv s → histInv (getNextTokens B n s).2 := by
  induction n with
  | zero => intro s h; exact h
  | succ n ih =>
      intro s h
      unfold getNextTokens
      dsimp only
      split_ifs with hc hs hb
      · exact histInv_getNextToken B _ (histInv_shiftContext B 64 s h)
      · exact ih _ (histInv_getNextToken B _ (histInv_shiftContext B 64 s h))
      · exact histInv_getNextToken B _ h
      · exact ih _ (histInv_getNextToken B _ h)
      · exact h

/-- Any sequence of public operations preserves
`n_past_ ≤ tokens_.size()`. -/
theorem runOps_histInv (trace : List (Backend × EngineOp)) :
    ∀ s : EngineState, histInv s → histInv (runOps trace s) := by
  induction trace with
  | nil => intro s h; exact h
  | cons p rest ih =>
      intro s h
      obtain ⟨B, op⟩ := p
      show histInv (runOps rest (applyOp B op s))
      apply ih
      cases op with
      | startInf pl cfg => exact histInv_startInference B pl cfg s
      | startInc pl cfg => exact histInv_startInferenceIncremental B pl cfg s h
      | next => exact histInv_getNextToken B s h
      | nextN n => exact histInv_getNextTokens B n s h
      | shiftCtx keep => exact histInv_shiftContext B keep s h
      | clearCacheOp => exact Nat.zero_le _

/-- C1 amended: after every sequence of public operations (fresh and
incremental starts, single and batched steps, shifts, cache clears) from
the freshly loaded engine, `committed ≤ len(history)` holds, i.e.
`n_past_ ≤ tokens_.size()` — including after operations that fail.  The
second half of the claimed invariant, `tokens_.size() ≤ context_length`,
is refuted by `history_exceeds_capacity_cex`. -/
theorem engine_committed_le_history (trace : List (Backend × EngineOp)) :
    histInv (runOps trace initState) :=
  runOps_histInv trace initState (Nat.zero_le 0)

/-- C1 counterexample: a fresh `startInference` with a window capacity of 8
and a prompt that tokenizes to 10 tokens leaves `tokens_.size() = 10 >
8 = context_length`, whether the prompt evaluation succeeds (first half)
or fails and the operation reports failure (second half).  The code never
compares the prompt length against the capacity. -/
theorem history_exceeds_capacity_cex :
    ((startInference oneB 10 cfg8 initState).2.tokens.length = 10
      ∧ (startInference oneB 10 cfg8 initState).2.config.context_length = 8
      ∧ ¬((startInference oneB 10 cfg8 initState).2.tokens.length
            ≤ (startInference oneB 10 cfg8 initState).2.config.context_length))
    ∧ ((startInference failDecodeB 10 cfg8 initState).1 = false
      ∧ (startInference failDecodeB 10 cfg8 initState).2.tokens.length = 10
      ∧ ¬((startInference failDecodeB 10 cfg8 initState).2.tokens.length
            ≤ (startInference failDecodeB 10 cfg8 initState).2.config.context_length)) := by
  decide

/-- C4: a synchronous step returns the empty string and clears
`is_generating_` whenever `n_past_ ≥ context_length - 1` (signed) or the
generated-token count has reached `max_tokens`; and in Scenario A
(capacity 2048, ten prompt tokens, `max_tokens = 5`) exactly five steps
produce text, `n_past_` ends at 15 and generation ends in the done
state. -/
theorem getNextToken_limits_and_scenA (B : Backend) (s : EngineState)
    (h : (s.config.context_length : Int) - 1 ≤ (s.n_past : Int)
         ∨ s.config.max_tokens ≤ s.generated) :
    ((getNextToken B s).1 = "" ∧ (getNextToken B s).2.is_generating = false)
    ∧ ((startInference oneB 10 cfgScenA initState).1 = true
       ∧ (∀ i, i < 5 → (getNextToken oneB (scenAState i)).1 = "a")
       ∧ (scenAState 5).n_past = 15
       ∧ (scenAState 5).generated = 5
       ∧ (scenAState 5).is_generating = true
       ∧ (getNextToken oneB (scenAState 5)).1 = ""
       ∧ (scenAState 6).is_generating = false
       ∧ (scenAState 6).n_past = 15) := by
  constructor
  · unfold getNextToken
    dsimp only
    split_ifs with c1 c2 c3 c4 c5
    · exact ⟨rfl, rfl⟩
    · exact ⟨rfl, rfl⟩
    · exact ⟨rfl, rfl⟩
    · exact ⟨rfl, rfl⟩
    · rcases h with h | h <;> omega
    · exact ⟨rfl, rfl⟩
  · exact ⟨by decide, by decide, by decide, by decide, by decide, by decide,
      by decide, by decide⟩

/-- Witness for `getNextToken_limits_and_scenA`: at the post-scenario state
the output-limit condition holds and one more step returns empty with
generation over. -/
theorem getNextToken_limits_witness :
    (getNextToken oneB (scenAState 6)).1 = ""
    ∧ (getNextToken oneB (scenAState 6)).2.is_generating = false :=
  (getNextToken_limits_and_scenA oneB (scenAState 6) (by decide)).1

end Cortex
